import Mathlib

/- Shallow embedding of the vizier Bayesian-optimization core:
   `vizier/_src/algorithms/designers/gp/acquisitions.py` and
   `vizier/_src/algorithms/optimizers/vectorized_base.py`.

   Python floats are modelled as exact rationals; `np.inf` is `⊤ : WithTop ℚ`
   (distances are nonnegative-or-infinite) and `-np.inf` is `⊥ : WithBot ℚ`
   (rewards are finite-or-minus-infinite); jax arrays are lists (rows of a 2-D
   array are inner lists).  External collaborators (the jax PRNG, the surrogate
   model's predictive distribution, the tfp acquisition reducers, the trial
   converter and the pluggable search strategy) are abstracted as function
   parameters, exactly as the spec delimits them. -/

namespace Vizier

/- ----------------------------------------------------------------------
   Ordering infrastructure: descending order on rewards.  The source sorts
   by ascending `-rewards` (`jnp.argsort(-rewards)`, `jnp.argpartition`),
   i.e. by descending reward; `rge a b` says "a's reward is at least b's".
   ---------------------------------------------------------------------- -/

/-- Descending (greater-or-equal) order on rewards, used to model sorting by
`-rewards` ascending in `_update_best_results` and `_best_candidates`. -/
def rge (a b : WithBot ℚ) : Prop := b ≤ a

instance : DecidableRel rge := fun a b => inferInstanceAs (Decidable (b ≤ a))

instance : IsTotal (WithBot ℚ) rge := ⟨fun a b => le_total b a⟩

instance : IsTrans (WithBot ℚ) rge := ⟨fun _ _ _ h₁ h₂ => le_trans h₂ h₁⟩

instance : IsAntisymm (WithBot ℚ) rge := ⟨fun _ _ h₁ h₂ => le_antisymm h₂ h₁⟩

/-- Descending order on (reward, payload) pairs by reward, modelling
`jnp.argpartition(-all_rewards, ...)` / `jnp.argsort(-rewards)` carrying the
feature rows along with the rewards. -/
def rewardPairGe {α : Type} (a b : WithBot ℚ × α) : Prop := b.1 ≤ a.1

instance {α : Type} : DecidableRel (rewardPairGe (α := α)) :=
  fun a b => inferInstanceAs (Decidable (b.1 ≤ a.1))

instance {α : Type} : IsTotal (WithBot ℚ × α) rewardPairGe :=
  ⟨fun a b => le_total b.1 a.1⟩

instance {α : Type} : IsTrans (WithBot ℚ × α) rewardPairGe :=
  ⟨fun _ _ _ h₁ h₂ => le_trans h₂ h₁⟩

/- ----------------------------------------------------------------------
   TrustRegion (acquisitions.py, class TrustRegion).
   ---------------------------------------------------------------------- -/

/-- Converter output-spec types.  Only the test
`spec.type is NumpyArraySpecType.ONEHOT_EMBEDDING` matters to `TrustRegion`;
every non-one-hot spec (continuous, discrete, ...) takes the `else` branch,
which we collapse into `CONTINUOUS`. -/
inductive NumpyArraySpecType : Type
  | ONEHOT_EMBEDDING : NumpyArraySpecType
  | CONTINUOUS : NumpyArraySpecType
deriving DecidableEq

/-- One output spec of the `TrialToArrayConverter` (the fields `TrustRegion`
reads: the spec type and its number of encoded dimensions). -/
structure NumpyArraySpec : Type where
  type : NumpyArraySpecType
  num_dimensions : ℕ
deriving DecidableEq

/-- The state of `TrustRegion.__init__`: trusted points of shape (N, D), the
converter output specs, and the two optional padding masks. -/
structure TrustRegion : Type where
  trusted : List (List ℚ)
  specs : List NumpyArraySpec
  feature_is_missing : Option (List Bool)
  observations_is_missing : Option (List Bool)

/-- Models `self._dof = len(specs)`. -/
def TrustRegion.dof (t : TrustRegion) : ℕ := t.specs.length

/-- Models `TrustRegion._compute_trust_radius`: literal arithmetic
`min_radius + (0.5 - min_radius) * (0.1*N + 0.9*N) / (dimension_factor * (dof + 1))`
with the hard-coded hyperparameters `min_radius = 0.2` (= 1/5) and
`dimension_factor = 5.0`. -/
def computeTrustRadius (numTrusted dof : ℕ) : ℚ :=
  1/5 + (1/2 - 1/5) *
    (((1/10) * (numTrusted : ℚ) + (9/10) * (numTrusted : ℚ)) /
      (5 * ((dof : ℚ) + 1)))

/-- Models the `trust_radius` property (computed in `__init__` from
`trusted.shape[0]` and `self._dof`). -/
def TrustRegion.trust_radius (t : TrustRegion) : ℚ :=
  computeTrustRadius t.trusted.length t.dof

/-- Per-spec contribution to `max_distance` in `TrustRegion.__init__`:
one-hot specs contribute `num_dimensions` copies of the trust radius, every
other spec contributes a single `np.inf`. -/
def NumpyArraySpec.maxDistanceEntries (radius : ℚ) (s : NumpyArraySpec) :
    List (WithTop ℚ) :=
  match s.type with
  | .ONEHOT_EMBEDDING => List.replicate s.num_dimensions ((radius : ℚ) : WithTop ℚ)
  | .CONTINUOUS => [(⊤ : WithTop ℚ)]

/-- Models `self._max_distances`: the per-spec caps, extended with `0.0` for
the trailing padded dimensions when `feature_is_missing` is given. -/
def TrustRegion.max_distances (t : TrustRegion) : List (WithTop ℚ) :=
  let base := (t.specs.map (NumpyArraySpec.maxDistanceEntries t.trust_radius)).flatten
  match t.feature_is_missing with
  | none => base
  | some m => base ++ List.replicate (m.length - base.length) ((0 : ℚ) : WithTop ℚ)

/-- Models `jnp.where(self._feature_is_missing, 0.0, row)`: zero out the
masked coordinates of a row (applied to trusted rows and queries alike). -/
def maskRow (m : Option (List Bool)) (r : List ℚ) : List ℚ :=
  match m with
  | none => r
  | some mask => List.zipWith (fun b v => if b then 0 else v) mask r

/-- The per-trusted-row missing flags (`self._observations_is_missing`,
`False` everywhere when the mask is absent). -/
def TrustRegion.obsFlags (t : TrustRegion) : List Bool :=
  match t.observations_is_missing with
  | none => List.replicate t.trusted.length false
  | some l => l

/-- One row of the `(M, N, D)` distance computation in `min_linf_distance`,
for a single query `x` against a single trusted row `tj` with missing flag
`missing`: absolute per-dimension differences, `np.inf` everywhere when the
observation is flagged missing, then the per-dimension cap
(`jnp.minimum(distances, self._max_distances)`), then `jnp.max` over the
dimension axis (the source requires at least one dimension; the fold base `0`
is below every capped distance, all of which are nonnegative). -/
def TrustRegion.rowDistance (t : TrustRegion) (x tj : List ℚ) (missing : Bool) :
    WithTop ℚ :=
  let dists : List (WithTop ℚ) := List.zipWith (fun a b => ((|a - b| : ℚ) : WithTop ℚ)) tj x
  let dists := if missing then dists.map (fun _ => (⊤ : WithTop ℚ)) else dists
  let bounded := List.zipWith min dists t.max_distances
  bounded.foldr max ((0 : ℚ) : WithTop ℚ)

/-- The `(M,)`-vector entry of `min_linf_distance` for one query row `x`:
mask the padded feature dimensions on both sides, compute each trusted row's
capped L-infinity distance, and take `jnp.min` over the trusted axis (the
source requires at least one trusted row; the fold base is `⊤`). -/
def TrustRegion.minLinfOne (t : TrustRegion) (x : List ℚ) : WithTop ℚ :=
  let trusted := t.trusted.map (maskRow t.feature_is_missing)
  let xm := maskRow t.feature_is_missing x
  ((trusted.zip t.obsFlags).map (fun p => t.rowDistance xm p.1 p.2)).foldr min
    (⊤ : WithTop ℚ)

/-- Models `TrustRegion.min_linf_distance` on an `(M, D)` query batch. -/
def TrustRegion.min_linf_distance (t : TrustRegion) (xs : List (List ℚ)) :
    List (WithTop ℚ) :=
  xs.map t.minLinfOne

/- ----------------------------------------------------------------------
   Trust-region gated acquisition (the `acquisition_on_array` closure built
   by `GPBanditAcquisitionBuilder.build`).
   ---------------------------------------------------------------------- -/

/-- The penalized value `-1e12 - distance` used for rows outside the trust
region.  The distance can be `np.inf` (e.g. when every trusted row is
missing), in which case the float result is `-inf`, modelled by `⊥`. -/
def penalizedValue (d : WithTop ℚ) : WithBot ℚ :=
  WithTop.recTopCoe ⊥ (fun q => (((-(10^12 : ℚ)) - q : ℚ) : WithBot ℚ)) d

/-- Models the `acquisition_on_array` closure defined inside
`GPBanditAcquisitionBuilder.build`: evaluate the acquisition function on the
predictive distribution of `xs` (abstracted as `acquisition_fn`, one score per
row), and if the trust region is in use and its radius is below 0.5, replace
the value of every row whose `min_linf_distance` exceeds the radius with
`-1e12 - distance` (`jnp.where(distance <= radius, acquisition, -1e12 - distance)`). -/
def acquisitionOnArray (use_trust_region : Bool) (tr : TrustRegion)
    (acquisition_fn : List (List ℚ) → List ℚ) (xs : List (List ℚ)) :
    List (WithBot ℚ) :=
  let acquisition := acquisition_fn xs
  if use_trust_region = true ∧ tr.trust_radius < 1/2 then
    let distance := tr.min_linf_distance xs
    List.zipWith
      (fun d a =>
        if d ≤ ((tr.trust_radius : ℚ) : WithTop ℚ) then ((a : ℚ) : WithBot ℚ)
        else penalizedValue d)
      distance acquisition
  else
    acquisition.map (fun a => ((a : ℚ) : WithBot ℚ))

/-- Helper: zipping two maps of the same list is a map of that list. -/
theorem zipWith_map_same {α β γ δ : Type} (g : β → γ → δ) (p : α → β) (q : α → γ)
    (xs : List α) :
    List.zipWith g (xs.map p) (xs.map q) = xs.map (fun x => g (p x) (q x)) := by
  induction xs with
  | nil => rfl
  | cons x xs ih => simp [ih]

/-- C1: with trust-region gating enabled and the current trust radius below
0.5, `acquisition_on_array` returns, per row, the acquisition value when the
row's `min_linf_distance` is at most the radius and the penalized value
`-1e12 - distance` otherwise; the penalty decreases monotonically in the
distance; with radius at least 0.5, or with gating disabled, every row gets
the raw acquisition value. -/
theorem acquisitionOnArray_trust_region_gating (tr : TrustRegion)
    (f : List ℚ → ℚ) (xs : List (List ℚ)) :
    (tr.trust_radius < 1/2 →
      acquisitionOnArray true tr (fun ys => ys.map f) xs
        = xs.map (fun x =>
            if tr.minLinfOne x ≤ ((tr.trust_radius : ℚ) : WithTop ℚ)
            then ((f x : ℚ) : WithBot ℚ)
            else penalizedValue (tr.minLinfOne x))) ∧
    ((1/2 : ℚ) ≤ tr.trust_radius →
      acquisitionOnArray true tr (fun ys => ys.map f) xs
        = xs.map (fun x => ((f x : ℚ) : WithBot ℚ))) ∧
    (acquisitionOnArray false tr (fun ys => ys.map f) xs
        = xs.map (fun x => ((f x : ℚ) : WithBot ℚ))) ∧
    (∀ d₁ d₂ : WithTop ℚ, d₁ ≤ d₂ → penalizedValue d₂ ≤ penalizedValue d₁) := by
  refine ⟨fun h => ?_, fun h => ?_, ?_, ?_⟩
  · rw [acquisitionOnArray, if_pos ⟨rfl, h⟩]
    exact zipWith_map_same _ _ _ _
  · rw [acquisitionOnArray, if_neg (by simp only [true_and, not_lt]; linarith)]
    simp [List.map_map]
  · rw [acquisitionOnArray, if_neg (by simp)]
    simp [List.map_map]
  · intro d₁ d₂ h
    induction d₂ using WithTop.recTopCoe with
    | top =>
      simp only [penalizedValue, WithTop.recTopCoe_top]
      exact bot_le
    | coe q₂ =>
      induction d₁ using WithTop.recTopCoe with
      | top => exact absurd (top_le_iff.1 (le_trans le_top h)) (by simp)
      | coe q₁ =>
        simp only [penalizedValue, WithTop.recTopCoe_coe, WithBot.coe_le_coe]
        have hq : q₁ ≤ q₂ := WithTop.coe_le_coe.1 h
        linarith

/-- Witness for C1 at a concrete trust region (no trusted points, radius
1/5 < 1/2): the only query row is at distance `⊤` from the (empty) trusted
set, hence gets the penalized value. -/
theorem acquisitionOnArray_trust_region_gating_witness :
    acquisitionOnArray true ⟨[], [⟨.CONTINUOUS, 1⟩], none, none⟩
        (fun ys => ys.map (fun _ => (0 : ℚ))) [[0]]
      = [penalizedValue (⊤ : WithTop ℚ)] := by
  have h := (acquisitionOnArray_trust_region_gating
      ⟨[], [⟨.CONTINUOUS, 1⟩], none, none⟩ (fun _ => (0 : ℚ)) [[0]]).1
    (by unfold TrustRegion.trust_radius computeTrustRadius TrustRegion.dof; norm_num)
  rw [h]
  simp [TrustRegion.minLinfOne, maskRow, TrustRegion.obsFlags]

/- ----------------------------------------------------------------------
   C4 and C5: the trust radius formula and the missing-observation
   distances.
   ---------------------------------------------------------------------- -/

/-- C4: the trust radius equals exactly
`min_radius + (0.5 - min_radius) * N / (dimension_factor * (dof + 1))`
(the 0.1/0.9 split is a no-op), equals `min_radius = 0.2` at zero trusted
points, is monotonically non-decreasing in the number of trusted points at
fixed `dof`, and is not clamped above 0.5 (at `N = 10 * (dof + 1)` it
exceeds 0.5). -/
theorem trustRegion_radius_formula :
    (∀ t : TrustRegion,
        t.trust_radius
          = 1/5 + (1/2 - 1/5) *
              ((t.trusted.length : ℚ) / (5 * ((t.specs.length : ℚ) + 1)))) ∧
    (∀ t : TrustRegion, t.trusted.length = 0 → t.trust_radius = 1/5) ∧
    (∀ dof N M : ℕ, N ≤ M → computeTrustRadius N dof ≤ computeTrustRadius M dof) ∧
    (∀ dof : ℕ, 1/2 < computeTrustRadius (10 * (dof + 1)) dof) := by
  have hform : ∀ N dof : ℕ,
      computeTrustRadius N dof
        = 1/5 + (1/2 - 1/5) * ((N : ℚ) / (5 * ((dof : ℚ) + 1))) := by
    intro N dof
    unfold computeTrustRadius
    have h : ((1/10) * (N : ℚ) + (9/10) * (N : ℚ)) = (N : ℚ) := by ring
    rw [h]
  refine ⟨fun t => hform _ _, fun t h => ?_, fun dof N M h => ?_, fun dof => ?_⟩
  · rw [TrustRegion.trust_radius, hform, h]
    norm_num
  · rw [hform, hform]
    have hc : (0 : ℚ) < 5 * ((dof : ℚ) + 1) := by positivity
    have hNM : (N : ℚ) ≤ (M : ℚ) := by exact_mod_cast h
    have hd : (N : ℚ) / (5 * ((dof : ℚ) + 1)) ≤ (M : ℚ) / (5 * ((dof : ℚ) + 1)) :=
      div_le_div_of_nonneg_right hNM hc.le
    have h310 : (0 : ℚ) ≤ 1/2 - 1/5 := by norm_num
    nlinarith
  · rw [hform]
    have hc : (0 : ℚ) < (dof : ℚ) + 1 := by positivity
    have h2 : ((10 * (dof + 1) : ℕ) : ℚ) / (5 * ((dof : ℚ) + 1)) = 2 := by
      push_cast
      field_simp
      ring
    rw [h2]
    norm_num

/-- Witness for C4: the radius of a trust region with no trusted points is
exactly 1/5, and the radius is monotone from 3 to 7 trusted points. -/
theorem trustRegion_radius_formula_witness :
    TrustRegion.trust_radius ⟨[], [⟨.CONTINUOUS, 1⟩], none, none⟩ = 1/5 ∧
    computeTrustRadius 3 1 ≤ computeTrustRadius 7 1 :=
  ⟨trustRegion_radius_formula.2.1 _ rfl,
   trustRegion_radius_formula.2.2.1 1 3 7 (by norm_num)⟩

/-- C5 (failing input): with a single one-hot spec of two dimensions, one
trusted row `[1, 0]` flagged "observation is missing", and query `[0, 1]`,
`min_linf_distance` returns the finite value 23/100 (the trust radius), not
`+infinity`: the `np.inf` written by the missing-observation mask is
subsequently capped per-dimension by `self._max_distances`, whose entries
all equal the trust radius here.  The missing row is therefore the nearest
trusted point and even lies within the trust radius, although the claim (and
the source's own comment "We set these distances to infinite since they
should never be considered") requires it never to match. -/
theorem minLinfDistance_missing_row_capped :
    TrustRegion.min_linf_distance
        ⟨[[1, 0]], [⟨.ONEHOT_EMBEDDING, 2⟩], none, some [true]⟩ [[0, 1]]
      = [((23/100 : ℚ) : WithTop ℚ)] ∧
    TrustRegion.trust_radius ⟨[[1, 0]], [⟨.ONEHOT_EMBEDDING, 2⟩], none, some [true]⟩
      = 23/100 ∧
    ((23/100 : ℚ) : WithTop ℚ) ≠ (⊤ : WithTop ℚ) := by
  have hr : TrustRegion.trust_radius
      ⟨[[1, 0]], [⟨.ONEHOT_EMBEDDING, 2⟩], none, some [true]⟩ = 23/100 := by
    unfold TrustRegion.trust_radius TrustRegion.dof computeTrustRadius
    norm_num
  refine ⟨?_, hr, WithTop.coe_ne_top⟩
  simp [TrustRegion.min_linf_distance, TrustRegion.minLinfOne, TrustRegion.rowDistance,
    TrustRegion.obsFlags, maskRow, TrustRegion.max_distances,
    NumpyArraySpec.maxDistanceEntries, hr]
  norm_num

/- ----------------------------------------------------------------------
   Problem statements and the two acquisition builders (acquisitions.py,
   GPBanditAcquisitionBuilder and GPBanditMultiAcquisitionBuilder).
   ---------------------------------------------------------------------- -/

/-- Models `vz.ObjectiveMetricGoal`. -/
inductive ObjectiveMetricGoal : Type
  | MAXIMIZE : ObjectiveMetricGoal
  | MINIMIZE : ObjectiveMetricGoal
deriving DecidableEq

/-- Models `vz.MetricInformation` (the fields `build()` writes). -/
structure MetricInformation : Type where
  name : String
  goal : ObjectiveMetricGoal
deriving DecidableEq

/-- Models `vz.ProblemStatement`: the metric configuration that `build()`
replaces, plus everything else (search space, metadata, ...) collapsed into
an abstract `search_space` component that `build()` never touches. -/
structure ProblemStatement (σ : Type) : Type where
  search_space : σ
  metric_information : List MetricInformation

/-- The message of the `ValueError` raised by every accessor before
`build()` has completed. -/
def notBuiltMsg : String := "Acquisition must be built first via build()."

/-- Models the attrs state of `GPBanditAcquisitionBuilder`: the constructor
configuration plus the attributes assigned by `build()` (absent, hence
`Option`, until `build()` runs; `_built` is set by `__attrs_post_init__`).
The jitted predict/sample callables are opaque payloads `π` and `ς` built
from the external surrogate model. -/
structure GPBanditAcquisitionBuilder (σ π ς : Type) : Type where
  use_trust_region : Bool
  built : Bool
  trOpt : Option TrustRegion
  acquisitionProblemOpt : Option (ProblemStatement σ)
  acquisitionOnArrayOpt : Option (List (List ℚ) → List (WithBot ℚ))
  predictOnArrayOpt : Option π
  sampleOnArrayOpt : Option ς

/-- Models construction (`__init__` + `__attrs_post_init__`): nothing is
built yet. -/
def GPBanditAcquisitionBuilder.init (use_tr : Bool) :
    GPBanditAcquisitionBuilder σ π ς :=
  ⟨use_tr, false, none, none, none, none, none⟩

/-- Models `GPBanditAcquisitionBuilder.build`.  The surrogate model, state
and labels only enter through the already-composed `acquisition_fn`,
`predictF` and `sampleF` (the predictive distribution is an external
collaborator).  `copy.deepcopy(problem)` followed by overwriting
`metric_information` means the caller's problem object is left unchanged; the
returned pair is (the built builder, the caller's problem object after the
call). -/
def GPBanditAcquisitionBuilder.build (b : GPBanditAcquisitionBuilder σ π ς)
    (problem : ProblemStatement σ) (features : List (List ℚ))
    (specs : List NumpyArraySpec)
    (observations_is_missing : Option (List Bool))
    (feature_is_missing : Option (List Bool))
    (acquisition_fn : List (List ℚ) → List ℚ) (predictF : π) (sampleF : ς) :
    GPBanditAcquisitionBuilder σ π ς × ProblemStatement σ :=
  let tr : TrustRegion := ⟨features, specs, feature_is_missing, observations_is_missing⟩
  ({ b with
      built := true
      trOpt := if b.use_trust_region then some tr else none
      acquisitionOnArrayOpt := some (acquisitionOnArray b.use_trust_region tr acquisition_fn)
      predictOnArrayOpt := some predictF
      sampleOnArrayOpt := some sampleF
      acquisitionProblemOpt :=
        some { problem with
               metric_information := [⟨"acquisition", .MAXIMIZE⟩] } },
   problem)

/-- The `acquisition_problem` property: raises unless built. -/
def GPBanditAcquisitionBuilder.acquisition_problem
    (b : GPBanditAcquisitionBuilder σ π ς) : Except String (ProblemStatement σ) :=
  if b.built = true then
    match b.acquisitionProblemOpt with
    | some p => .ok p
    | none => .error notBuiltMsg
  else .error notBuiltMsg

/-- The `acquisition_on_array` property: raises unless built. -/
def GPBanditAcquisitionBuilder.acquisition_on_array
    (b : GPBanditAcquisitionBuilder σ π ς) :
    Except String (List (List ℚ) → List (WithBot ℚ)) :=
  if b.built = true then
    match b.acquisitionOnArrayOpt with
    | some f => .ok f
    | none => .error notBuiltMsg
  else .error notBuiltMsg

/-- The `predict_on_array` property: raises unless built. -/
def GPBanditAcquisitionBuilder.predict_on_array
    (b : GPBanditAcquisitionBuilder σ π ς) : Except String π :=
  if b.built = true then
    match b.predictOnArrayOpt with
    | some f => .ok f
    | none => .error notBuiltMsg
  else .error notBuiltMsg

/-- The `sample_on_array` property: raises unless built. -/
def GPBanditAcquisitionBuilder.sample_on_array
    (b : GPBanditAcquisitionBuilder σ π ς) : Except String ς :=
  if b.built = true then
    match b.sampleOnArrayOpt with
    | some f => .ok f
    | none => .error notBuiltMsg
  else .error notBuiltMsg

/-- The `metadata_dict` property: raises unless built; `{}` without a trust
region, else the trust radius diagnostic. -/
def GPBanditAcquisitionBuilder.metadata_dict
    (b : GPBanditAcquisitionBuilder σ π ς) : Except String (List (String × ℚ)) :=
  if b.built = true then
    if b.use_trust_region = false then .ok []
    else
      match b.trOpt with
      | some tr => .ok [("trust_radius", tr.trust_radius)]
      | none => .error notBuiltMsg
  else .error notBuiltMsg

/-- Models the stacked `acquisition_on_array` closure of
`GPBanditMultiAcquisitionBuilder.build`: one row of scores per named
acquisition function (`jnp.stack(acquisitions, axis=0)`), with the same
`jnp.where` trust-region mask broadcast across the stack. -/
def multiAcquisitionOnArray (use_trust_region : Bool) (tr : TrustRegion)
    (acquisition_fns : List (String × (List (List ℚ) → List ℚ)))
    (xs : List (List ℚ)) : List (List (WithBot ℚ)) :=
  let acquisition := acquisition_fns.map (fun nf => nf.2 xs)
  if use_trust_region = true ∧ tr.trust_radius < 1/2 then
    let distance := tr.min_linf_distance xs
    acquisition.map (fun row =>
      List.zipWith
        (fun d a =>
          if d ≤ ((tr.trust_radius : ℚ) : WithTop ℚ) then ((a : ℚ) : WithBot ℚ)
          else penalizedValue d)
        distance row)
  else
    acquisition.map (fun row => row.map (fun a => ((a : ℚ) : WithBot ℚ)))

/-- Models the attrs state of `GPBanditMultiAcquisitionBuilder`
(`acquisition_fns` is a name-keyed insertion-ordered dict, modelled as an
association list). -/
structure GPBanditMultiAcquisitionBuilder (σ π ς : Type) : Type where
  acquisition_fns : List (String × (List (List ℚ) → List ℚ))
  use_trust_region : Bool
  built : Bool
  trOpt : Option TrustRegion
  acquisitionProblemOpt : Option (ProblemStatement σ)
  acquisitionOnArrayOpt : Option (List (List ℚ) → List (List (WithBot ℚ)))
  predictOnArrayOpt : Option π
  sampleOnArrayOpt : Option ς

/-- Models construction of the multi builder: nothing is built yet. -/
def GPBanditMultiAcquisitionBuilder.init
    (fns : List (String × (List (List ℚ) → List ℚ))) (use_tr : Bool) :
    GPBanditMultiAcquisitionBuilder σ π ς :=
  ⟨fns, use_tr, false, none, none, none, none, none⟩

/-- Models `GPBanditMultiAcquisitionBuilder.build` on array features (the
continuous-and-categorical branch raises and is outside the claims): the
trust region is built without padding masks (the multi variant deletes
them), and the acquisition problem gets one MAXIMIZE metric per name in
insertion order. -/
def GPBanditMultiAcquisitionBuilder.build
    (b : GPBanditMultiAcquisitionBuilder σ π ς)
    (problem : ProblemStatement σ) (features : List (List ℚ))
    (specs : List NumpyArraySpec) (predictF : π) (sampleF : ς) :
    GPBanditMultiAcquisitionBuilder σ π ς × ProblemStatement σ :=
  let tr : TrustRegion := ⟨features, specs, none, none⟩
  ({ b with
      built := true
      trOpt := if b.use_trust_region then some tr else none
      acquisitionOnArrayOpt :=
        some (multiAcquisitionOnArray b.use_trust_region tr b.acquisition_fns)
      predictOnArrayOpt := some predictF
      sampleOnArrayOpt := some sampleF
      acquisitionProblemOpt :=
        some { problem with
               metric_information :=
                 b.acquisition_fns.map (fun nf => ⟨nf.1, .MAXIMIZE⟩) } },
   problem)

/-- The multi builder's `acquisition_problem` property: raises unless built. -/
def GPBanditMultiAcquisitionBuilder.acquisition_problem
    (b : GPBanditMultiAcquisitionBuilder σ π ς) :
    Except String (ProblemStatement σ) :=
  if b.built = true then
    match b.acquisitionProblemOpt with
    | some p => .ok p
    | none => .error notBuiltMsg
  else .error notBuiltMsg

/-- The multi builder's `acquisition_on_array` property: raises unless built. -/
def GPBanditMultiAcquisitionBuilder.acquisition_on_array
    (b : GPBanditMultiAcquisitionBuilder σ π ς) :
    Except String (List (List ℚ) → List (List (WithBot ℚ))) :=
  if b.built = true then
    match b.acquisitionOnArrayOpt with
    | some f => .ok f
    | none => .error notBuiltMsg
  else .error notBuiltMsg

/-- The multi builder's `predict_on_array` property: raises unless built. -/
def GPBanditMultiAcquisitionBuilder.predict_on_array
    (b : GPBanditMultiAcquisitionBuilder σ π ς) : Except String π :=
  if b.built = true then
    match b.predictOnArrayOpt with
    | some f => .ok f
    | none => .error notBuiltMsg
  else .error notBuiltMsg

/-- The multi builder's `sample_on_array` property: raises unless built. -/
def GPBanditMultiAcquisitionBuilder.sample_on_array
    (b : GPBanditMultiAcquisitionBuilder σ π ς) : Except String ς :=
  if b.built = true then
    match b.sampleOnArrayOpt with
    | some f => .ok f
    | none => .error notBuiltMsg
  else .error notBuiltMsg

/-- The multi builder's `metadata_dict` property: raises unless built. -/
def GPBanditMultiAcquisitionBuilder.metadata_dict
    (b : GPBanditMultiAcquisitionBuilder σ π ς) :
    Except String (List (String × ℚ)) :=
  if b.built = true then
    if b.use_trust_region = false then .ok []
    else
      match b.trOpt with
      | some tr => .ok [("trust_radius", tr.trust_radius)]
      | none => .error notBuiltMsg
  else .error notBuiltMsg

/-- C7: on both builders, every one of the five accessors raises the
"Acquisition must be built first via build()." error before `build()` has
completed, and none of them raises after `build()` has completed. -/
theorem builders_not_built_error {σ π ς : Type} (useTR : Bool)
    (problem : ProblemStatement σ) (features : List (List ℚ))
    (specs : List NumpyArraySpec) (obsm fm : Option (List Bool))
    (acq : List (List ℚ) → List ℚ) (predictF : π) (sampleF : ς)
    (fns : List (String × (List (List ℚ) → List ℚ))) :
    ((GPBanditAcquisitionBuilder.init (σ := σ) (π := π) (ς := ς) useTR).acquisition_problem
        = .error notBuiltMsg ∧
     (GPBanditAcquisitionBuilder.init (σ := σ) (π := π) (ς := ς) useTR).acquisition_on_array
        = .error notBuiltMsg ∧
     (GPBanditAcquisitionBuilder.init (σ := σ) (π := π) (ς := ς) useTR).predict_on_array
        = .error notBuiltMsg ∧
     (GPBanditAcquisitionBuilder.init (σ := σ) (π := π) (ς := ς) useTR).sample_on_array
        = .error notBuiltMsg ∧
     (GPBanditAcquisitionBuilder.init (σ := σ) (π := π) (ς := ς) useTR).metadata_dict
        = .error notBuiltMsg) ∧
    ((GPBanditMultiAcquisitionBuilder.init (σ := σ) (π := π) (ς := ς) fns useTR).acquisition_problem
        = .error notBuiltMsg ∧
     (GPBanditMultiAcquisitionBuilder.init (σ := σ) (π := π) (ς := ς) fns useTR).acquisition_on_array
        = .error notBuiltMsg ∧
     (GPBanditMultiAcquisitionBuilder.init (σ := σ) (π := π) (ς := ς) fns useTR).predict_on_array
        = .error notBuiltMsg ∧
     (GPBanditMultiAcquisitionBuilder.init (σ := σ) (π := π) (ς := ς) fns useTR).sample_on_array
        = .error notBuiltMsg ∧
     (GPBanditMultiAcquisitionBuilder.init (σ := σ) (π := π) (ς := ς) fns useTR).metadata_dict
        = .error notBuiltMsg) ∧
    (let b := ((GPBanditAcquisitionBuilder.init useTR).build
        problem features specs obsm fm acq predictF sampleF).1
     (∃ v, b.acquisition_problem = .ok v) ∧
     (∃ v, b.acquisition_on_array = .ok v) ∧
     (∃ v, b.predict_on_array = .ok v) ∧
     (∃ v, b.sample_on_array = .ok v) ∧
     (∃ v, b.metadata_dict = .ok v)) ∧
    (let b := ((GPBanditMultiAcquisitionBuilder.init fns useTR).build
        problem features specs predictF sampleF).1
     (∃ v, b.acquisition_problem = .ok v) ∧
     (∃ v, b.acquisition_on_array = .ok v) ∧
     (∃ v, b.predict_on_array = .ok v) ∧
     (∃ v, b.sample_on_array = .ok v) ∧
     (∃ v, b.metadata_dict = .ok v)) := by
  refine ⟨⟨rfl, rfl, rfl, rfl, rfl⟩, ⟨rfl, rfl, rfl, rfl, rfl⟩, ?_, ?_⟩
  · refine ⟨⟨_, rfl⟩, ⟨_, rfl⟩, ⟨_, rfl⟩, ⟨_, rfl⟩, ?_⟩
    cases useTR with
    | false => exact ⟨[], rfl⟩
    | true => exact ⟨_, rfl⟩
  · refine ⟨⟨_, rfl⟩, ⟨_, rfl⟩, ⟨_, rfl⟩, ⟨_, rfl⟩, ?_⟩
    cases useTR with
    | false => exact ⟨[], rfl⟩
    | true => exact ⟨_, rfl⟩

/-- C8: `build()` leaves the caller's problem unchanged (deep copy) and
produces an acquisition problem equal to the input except that its metrics
are replaced by exactly one MAXIMIZE metric named "acquisition" (single
builder), respectively one MAXIMIZE metric per acquisition name in order
(multi builder). -/
theorem build_replaces_metrics {σ π ς : Type} (useTR : Bool)
    (problem : ProblemStatement σ) (features : List (List ℚ))
    (specs : List NumpyArraySpec) (obsm fm : Option (List Bool))
    (acq : List (List ℚ) → List ℚ) (predictF : π) (sampleF : ς)
    (fns : List (String × (List (List ℚ) → List ℚ))) :
    (((GPBanditAcquisitionBuilder.init useTR).build
        problem features specs obsm fm acq predictF sampleF).2 = problem) ∧
    (((GPBanditAcquisitionBuilder.init useTR).build
        problem features specs obsm fm acq predictF sampleF).1.acquisitionProblemOpt
      = some { search_space := problem.search_space
               metric_information :=
                 [⟨"acquisition", ObjectiveMetricGoal.MAXIMIZE⟩] }) ∧
    (((GPBanditMultiAcquisitionBuilder.init fns useTR).build
        problem features specs predictF sampleF).2 = problem) ∧
    (((GPBanditMultiAcquisitionBuilder.init fns useTR).build
        problem features specs predictF sampleF).1.acquisitionProblemOpt
      = some { search_space := problem.search_space
               metric_information :=
                 fns.map (fun nf => ⟨nf.1, ObjectiveMetricGoal.MAXIMIZE⟩) }) :=
  ⟨rfl, rfl, rfl, rfl⟩

/- ----------------------------------------------------------------------
   The jax PRNG interface and the sampling-based acquisitions QEI / QUCB.
   ---------------------------------------------------------------------- -/

/-- The jax pseudorandom-key interface (external collaborator): key
construction from an integer and deterministic key splitting (into 2, and
into 3 for the optimizer's per-step split). -/
structure JaxRandom (K : Type) : Type where
  PRNGKey : ℕ → K
  split2 : K → K × K
  split3 : K → K × K × K

/-- The external tfp sampling-based acquisitions
(`ParallelExpectedImprovement` / `ParallelUpperConfidenceBound`) draw
`num_samples` joint samples from the distribution with the given seed and
reduce them against the labels; the distribution's sampler and the reducer
are abstract parameters. -/
def tfpSampledAcquisition {K Sm L : Type} (sample : ℕ → K → Sm)
    (reduce : Sm → L → ℚ) (labels : L) (seed : K) (num_samples : ℕ) : ℚ :=
  reduce (sample num_samples seed) labels

/-- Models the attrs fields of `QEI` (`num_samples` defaults to 100, `seed`
to `None`). -/
structure QEI (K : Type) : Type where
  num_samples : ℕ
  seed : Option K

/-- The `ValueError` message Python raises when the truthiness of a
multi-element array is evaluated (as `x or y` does on its left operand). -/
def arrayTruthinessMsg : String :=
  "The truth value of an array with more than one element is ambiguous."

/-- Models the Python expression `seed_opt or default` on an
`Optional[jax.random.KeyArray]`: `None` is falsy, so the default key is
produced; a present key is a jax array of shape (2,), and `or` evaluates
`bool()` of it, which raises the ambiguous-truth-value `ValueError`. -/
def keyOrDefault {K : Type} (seed : Option K) (default : K) : Except String K :=
  match seed with
  | none => .ok default
  | some _ => .error arrayTruthinessMsg

/-- Models `QEI.__call__`: `seed = self.seed or jax.random.PRNGKey(0)` (a
`None` seed silently falls back to the fixed key 0; an explicit key seed
raises in the truthiness test of `or`), then the tfp parallel-EI reduction
of `num_samples` samples. -/
def QEI.call {K Sm L : Type} (q : QEI K) (rng : JaxRandom K)
    (sample : ℕ → K → Sm) (reduce : Sm → L → ℚ) (labels : L) :
    Except String ℚ :=
  match keyOrDefault q.seed (rng.PRNGKey 0) with
  | .error e => .error e
  | .ok seed => .ok (tfpSampledAcquisition sample reduce labels seed q.num_samples)

/-- Models the attrs fields of `QUCB` (`coefficient` defaults to 1.8,
`num_samples` to 100, `seed` to `None`). -/
structure QUCB (K : Type) : Type where
  coefficient : ℚ
  num_samples : ℕ
  seed : Option K

/-- Models `QUCB.__call__`: the same `self.seed or jax.random.PRNGKey(0)`
expression as QEI (fallback on `None`, `ValueError` on an explicit key),
then the tfp parallel-UCB reduction of `num_samples` samples with the
exploration coefficient. -/
def QUCB.call {K Sm L : Type} (q : QUCB K) (rng : JaxRandom K)
    (sample : ℕ → K → Sm) (reduce : ℚ → Sm → L → ℚ) (labels : L) :
    Except String ℚ :=
  match keyOrDefault q.seed (rng.PRNGKey 0) with
  | .error e => .error e
  | .ok seed =>
    .ok (tfpSampledAcquisition sample (reduce q.coefficient) labels seed
      q.num_samples)

/-- C9 (failing input): with no seed, QEI and QUCB silently fall back to the
fixed key `PRNGKey 0` and hand exactly `num_samples` samples to the tfp
reducer — the first two conjuncts evaluate concrete no-seed calls whose
sampler encodes the received sample count (100, resp. 20) and seed (the
fallback key 0) into the result.  But with any explicit key seed,
`self.seed or jax.random.PRNGKey(0)` evaluates `bool()` of a 2-element key
array and raises the ambiguous-truth-value `ValueError`, so the claim's
explicit-seed determinism fails: the last two conjuncts show concrete
explicit-seed calls erroring instead of returning values. -/
theorem qei_qucb_explicit_seed_raises :
    QEI.call (K := ℕ) (L := ℕ) ⟨100, none⟩
        ⟨fun n => n, fun k => (k, k), fun k => (k, k, k)⟩
        (fun n k => ((n, k) : ℕ × ℕ)) (fun p _ => (p.1 : ℚ) + (p.2 : ℚ)) 0
      = .ok 100 ∧
    QUCB.call (K := ℕ) (L := ℕ) ⟨9/5, 20, none⟩
        ⟨fun n => n, fun k => (k, k), fun k => (k, k, k)⟩
        (fun n k => ((n, k) : ℕ × ℕ)) (fun c p _ => c * (p.1 : ℚ) + (p.2 : ℚ)) 0
      = .ok 36 ∧
    QEI.call (K := ℕ) (L := ℕ) ⟨100, some 7⟩
        ⟨fun n => n, fun k => (k, k), fun k => (k, k, k)⟩
        (fun n k => ((n, k) : ℕ × ℕ)) (fun p _ => (p.1 : ℚ) + (p.2 : ℚ)) 0
      = .error arrayTruthinessMsg ∧
    QUCB.call (K := ℕ) (L := ℕ) ⟨9/5, 20, some 7⟩
        ⟨fun n => n, fun k => (k, k), fun k => (k, k, k)⟩
        (fun n k => ((n, k) : ℕ × ℕ)) (fun c p _ => c * (p.1 : ℚ) + (p.2 : ℚ)) 0
      = .error arrayTruthinessMsg := by
  refine ⟨?_, ?_, rfl, rfl⟩ <;>
    norm_num [QEI.call, QUCB.call, keyOrDefault, tfpSampledAcquisition]

/- ----------------------------------------------------------------------
   VectorizedOptimizer (vectorized_base.py).
   ---------------------------------------------------------------------- -/

/-- Models `vz.Measurement`: a named-metric dictionary (here only the
'acquisition' metric is ever written). -/
structure Measurement : Type where
  metrics : List (String × WithBot ℚ)

/-- Models `vz.Trial`: parameters (abstract type `P`, produced by the
converter collaborator), the creation time used to sort prior trials, and
the final measurement set by `trial.complete(...)` (absent while the trial
is pending). -/
structure Trial (P : Type) : Type where
  parameters : P
  creation_time : ℕ
  final_measurement : Option Measurement

/-- Models `trial.complete(measurement)`. -/
def Trial.complete {P : Type} (t : Trial P) (m : Measurement) : Trial P :=
  { t with final_measurement := some m }

/-- The trial's 'acquisition' metric (`⊥` when the trial has no completed
measurement or no such metric). -/
def Trial.acquisition {P : Type} (t : Trial P) : WithBot ℚ :=
  match t.final_measurement with
  | none => ⊥
  | some m =>
    match m.metrics.find? (fun kv => kv.1 == "acquisition") with
    | some kv => kv.2
    | none => ⊥

/-- The trial converter collaborator (`TrialToArrayConverter`, external per
the spec): the encoded feature dimension (`to_features([]).shape[-1]`),
trials-to-features, and feature-row-to-parameters.  (The
`PaddedTrialToArrayConverter` branches of `optimize` concern the excluded
padded-converter collaborator; the `isinstance` tests are `False` here.) -/
structure TrialToArrayConverter (P : Type) : Type where
  num_features : ℕ
  to_features : List (Trial P) → List (List ℚ)
  to_parameters : List ℚ → P

/-- The `VectorizedStrategy` interface consumed by the optimizer:
`init_state`, `suggest` and `update`, all pure and seed-threaded. -/
structure VectorizedStrategy (S K : Type) : Type where
  init_state : K → Option (List (List ℚ)) → Option (List (WithBot ℚ)) → S
  suggest : S → K → List (List ℚ)
  update : S → List (List ℚ) → List (WithBot ℚ) → K → S

/-- Models `VectorizedStrategyResults`: the aligned (features, rewards)
arrays of the best-results pool. -/
structure VectorizedStrategyResults : Type where
  features : List (List ℚ)
  rewards : List (WithBot ℚ)

/-- Models the attrs fields of `VectorizedOptimizer` (defaults
`suggestion_batch_size = 25`, `max_evaluations = 75000`, `jit_loop = True`).
`jax.jit` is a semantics-preserving external compiler, so the `jit_loop`
toggle does not enter the loop's semantics. -/
structure VectorizedOptimizer (P S K : Type) : Type where
  strategy_factory : TrialToArrayConverter P → ℕ → VectorizedStrategy S K
  suggestion_batch_size : ℕ
  max_evaluations : ℕ
  jit_loop : Bool

/-- The static trip count of the `jax.lax.fori_loop` in `optimize`:
`max_evaluations // suggestion_batch_size`. -/
def VectorizedOptimizer.numSteps {P S K : Type} (o : VectorizedOptimizer P S K) : ℕ :=
  o.max_evaluations / o.suggestion_batch_size

/-- The evaluation count reported by `optimize`'s log line:
`(max_evaluations // suggestion_batch_size) * suggestion_batch_size`. -/
def VectorizedOptimizer.totalEvaluations {P S K : Type}
    (o : VectorizedOptimizer P S K) : ℕ :=
  (o.max_evaluations / o.suggestion_batch_size) * o.suggestion_batch_size

/-- Models `VectorizedOptimizer._update_best_results`: concatenate the new
batch with the pool and keep `count` rows carrying the `count` largest
rewards.  `jnp.argpartition(-all_rewards, count - 1)[:count]` selects indices
of the `count` largest rewards in unspecified order; it is modelled by a
stable descending sort by reward followed by `take count`, a particular
implementation of that contract. -/
def updateBestResults (best : VectorizedStrategyResults) (count : ℕ)
    (batch_features : List (List ℚ)) (batch_rewards : List (WithBot ℚ)) :
    VectorizedStrategyResults :=
  let all_rewards := batch_rewards ++ best.rewards
  let all_features := batch_features ++ best.features
  let top := (List.insertionSort rewardPairGe (all_rewards.zip all_features)).take count
  { features := top.map Prod.snd, rewards := top.map Prod.fst }

/-- Models `VectorizedOptimizer._best_candidates`: sort the final pool by
descending reward (`jnp.argsort(-rewards)` is a stable ascending sort of the
negated rewards), convert each feature row back to parameters, and complete
each resulting trial with an 'acquisition' measurement holding its reward. -/
def bestCandidates {P : Type} (best : VectorizedStrategyResults)
    (converter : TrialToArrayConverter P) : List (Trial P) :=
  (List.insertionSort rewardPairGe (best.rewards.zip best.features)).map
    (fun rf =>
      Trial.complete ⟨converter.to_parameters rf.2, 0, none⟩
        ⟨[("acquisition", rf.1)]⟩)

/-- Ascending creation-time order on trials
(`sorted(prior_trials, key=lambda x: x.creation_time)`, a stable sort). -/
def creationLe {P : Type} (a b : Trial P) : Prop :=
  a.creation_time ≤ b.creation_time

instance {P : Type} : DecidableRel (creationLe (P := P)) :=
  fun a b => inferInstanceAs (Decidable (a.creation_time ≤ b.creation_time))

/-- Models `_optimization_one_step`: split the step seed into
(suggest, update, continuation) sub-seeds, ask the strategy for a batch,
score it, tell the strategy, and fold the batch into the best-results pool. -/
def optimizationOneStep {S K : Type} (rng : JaxRandom K)
    (strategy : VectorizedStrategy S K)
    (score_fn : List (List ℚ) → List (WithBot ℚ)) (count : ℕ)
    (args : S × VectorizedStrategyResults × K) :
    S × VectorizedStrategyResults × K :=
  let state := args.1
  let best_results := args.2.1
  let seeds := rng.split3 args.2.2
  let new_features := strategy.suggest state seeds.1
  let new_rewards := score_fn new_features
  let new_state := strategy.update state new_features new_rewards seeds.2.1
  let new_best_results := updateBestResults best_results count new_features new_rewards
  (new_state, new_best_results, seeds.2.2)

/-- The state of `optimize` just after the `fori_loop`: prior-trial seeding
(sort by creation time, convert, score once), a fresh strategy from the
factory, the `-inf`/zeros pool of exactly `count` rows, and the fold of
`_optimization_one_step` over the static trip count
`max_evaluations // suggestion_batch_size`. -/
def VectorizedOptimizer.loopResult {P S K : Type} (o : VectorizedOptimizer P S K)
    (rng : JaxRandom K) (converter : TrialToArrayConverter P)
    (score_fn : List (List ℚ) → List (WithBot ℚ)) (count : ℕ)
    (prior_trials : List (Trial P)) (seed : Option ℕ) :
    S × VectorizedStrategyResults × K :=
  let seed0 := rng.PRNGKey (seed.getD 0)
  let prior :
      Option (List (List ℚ)) × Option (List (WithBot ℚ)) :=
    if prior_trials.isEmpty then (none, none)
    else
      let sorted_trials := List.insertionSort creationLe prior_trials
      let prior_features := converter.to_features sorted_trials
      (some prior_features, some (score_fn prior_features))
  let strategy := o.strategy_factory converter o.suggestion_batch_size
  let seeds := rng.split2 seed0
  let init_best_results : VectorizedStrategyResults :=
    { rewards := List.replicate count ⊥
      features := List.replicate count (List.replicate converter.num_features 0) }
  (List.range o.numSteps).foldl
    (fun args _ => optimizationOneStep rng strategy score_fn count args)
    (strategy.init_state seeds.1 prior.1 prior.2, init_best_results, seeds.2)

/-- Models `VectorizedOptimizer.optimize`: run the loop, then extract the
best candidates (`jit_loop` only wraps the loop in `jax.jit`). -/
def VectorizedOptimizer.optimize {P S K : Type} (o : VectorizedOptimizer P S K)
    (rng : JaxRandom K) (converter : TrialToArrayConverter P)
    (score_fn : List (List ℚ) → List (WithBot ℚ)) (count : ℕ)
    (prior_trials : List (Trial P)) (seed : Option ℕ) : List (Trial P) :=
  bestCandidates
    (o.loopResult rng converter score_fn count prior_trials seed).2.1 converter

/- ----------------------------------------------------------------------
   Sorting toolbox for the best-results pool.
   ---------------------------------------------------------------------- -/

/-- The count-largest reward selection: sort descending, keep the first
`count` entries. -/
def sortTake (count : ℕ) (l : List (WithBot ℚ)) : List (WithBot ℚ) :=
  (List.insertionSort rge l).take count

/-- Sorting by the (antisymmetric) descending reward order is invariant
under permutation of the input. -/
theorem insertionSort_rge_congr {l₁ l₂ : List (WithBot ℚ)} (h : l₁.Perm l₂) :
    List.insertionSort rge l₁ = List.insertionSort rge l₂ :=
  List.eq_of_perm_of_sorted
    ((List.perm_insertionSort rge l₁).trans
      (h.trans (List.perm_insertionSort rge l₂).symm))
    (List.sorted_insertionSort rge l₁) (List.sorted_insertionSort rge l₂)

/-- The count-largest selection is permutation-invariant. -/
theorem sortTake_congr (count : ℕ) {l₁ l₂ : List (WithBot ℚ)} (h : l₁.Perm l₂) :
    sortTake count l₁ = sortTake count l₂ := by
  rw [sortTake, sortTake, insertionSort_rge_congr h]

/-- Sorting reward/payload pairs by descending reward and projecting to the
rewards is the same as sorting the rewards alone. -/
theorem map_fst_insertionSort {α : Type} (l : List (WithBot ℚ × α)) :
    (List.insertionSort rewardPairGe l).map Prod.fst
      = List.insertionSort rge (l.map Prod.fst) :=
  List.eq_of_perm_of_sorted (r := rge)
    (((List.perm_insertionSort rewardPairGe l).map Prod.fst).trans
      (List.perm_insertionSort rge (l.map Prod.fst)).symm)
    (List.Pairwise.map Prod.fst (fun _ _ h => h)
      (List.sorted_insertionSort rewardPairGe l))
    (List.sorted_insertionSort rge (l.map Prod.fst))

/-- In a descending-sorted list bounded above by `x`, if at least `count`
entries are `≥ x` then the first `count` entries all equal `x`. -/
theorem take_eq_replicate_of_countP (x : WithBot ℚ) :
    ∀ (u : List (WithBot ℚ)) (count : ℕ), List.Sorted rge u →
      (∀ e ∈ u, e ≤ x) → count ≤ u.countP (fun y => decide (x ≤ y)) →
      u.take count = List.replicate count x := by
  intro u
  induction u with
  | nil =>
    intro count _ _ hc
    simp only [List.countP_nil, Nat.le_zero] at hc
    simp [hc]
  | cons y u' ih =>
    intro count hs hb hc
    cases count with
    | zero => simp
    | succ c =>
      have hyx : y ≤ x := hb y (List.mem_cons_self y u')
      have hxy : x ≤ y := by
        by_contra hxy
        have h0 : u'.countP (fun z => decide (x ≤ z)) = 0 := by
          rw [List.countP_eq_zero]
          intro e he
          simp only [decide_eq_true_eq]
          intro hxe
          exact hxy (le_trans hxe (List.rel_of_sorted_cons hs e he))
        rw [List.countP_cons, h0, decide_eq_false hxy] at hc
        simp at hc
      have hcount : c ≤ u'.countP (fun z => decide (x ≤ z)) := by
        rw [List.countP_cons, decide_eq_true hxy] at hc
        simp at hc
        omega
      have hrepl := ih c hs.of_cons (fun e he => hb e (List.mem_cons_of_mem y he))
        hcount
      rw [List.take_succ_cons, hrepl, le_antisymm hyx hxy, List.replicate_succ]

/-- Inserting an element into a descending-sorted list that already holds
`count` entries at least as large leaves the first `count` entries
unchanged. -/
theorem take_orderedInsert_of_countP (x : WithBot ℚ) :
    ∀ (u : List (WithBot ℚ)) (count : ℕ), List.Sorted rge u →
      count ≤ u.countP (fun y => decide (x ≤ y)) →
      (List.orderedInsert rge x u).take count = u.take count := by
  intro u
  induction u with
  | nil =>
    intro count _ hc
    simp only [List.countP_nil, Nat.le_zero] at hc
    simp [hc]
  | cons y u' ih =>
    intro count hs hc
    by_cases hxy : rge x y
    · rw [List.orderedInsert, if_pos hxy]
      have hb : ∀ e ∈ y :: u', e ≤ x := by
        intro e he
        rcases List.mem_cons.1 he with rfl | he'
        · exact hxy
        · exact le_trans (List.rel_of_sorted_cons hs e he') hxy
      have hs' : List.Sorted rge (x :: y :: u') :=
        List.sorted_cons.2 ⟨fun b hb' => hb b hb', hs⟩
      have hb' : ∀ e ∈ x :: y :: u', e ≤ x := by
        intro e he
        rcases List.mem_cons.1 he with rfl | he'
        · exact le_refl _
        · exact hb e he'
      have hc' : count ≤ (x :: y :: u').countP (fun z => decide (x ≤ z)) := by
        rw [List.countP_cons]
        exact le_trans hc (Nat.le_add_right _ _)
      rw [take_eq_replicate_of_countP x (x :: y :: u') count hs' hb' hc',
        take_eq_replicate_of_countP x (y :: u') count hs hb hc]
    · rw [List.orderedInsert, if_neg hxy]
      cases count with
      | zero => simp
      | succ c =>
        have hcount : c ≤ u'.countP (fun z => decide (x ≤ z)) := by
          have hxley : x ≤ y := le_of_lt (not_le.1 hxy)
          rw [List.countP_cons, decide_eq_true hxley] at hc
          simp at hc
          omega
        rw [List.take_succ_cons, List.take_succ_cons, ih c hs.of_cons hcount]

/-- Appending elements, each of which is dominated by at least `count`
entries of `m`, does not change the count-largest selection. -/
theorem sortTake_append_of_countP :
    ∀ (r m : List (WithBot ℚ)) (count : ℕ),
      (∀ x ∈ r, count ≤ m.countP (fun y => decide (x ≤ y))) →
      sortTake count (m ++ r) = sortTake count m := by
  intro r
  induction r with
  | nil => intro m count _; rw [List.append_nil]
  | cons x r' ih =>
    intro m count hr
    have h3 : count ≤ (List.insertionSort rge (m ++ r')).countP
        (fun y => decide (x ≤ y)) := by
      rw [(List.perm_insertionSort rge (m ++ r')).countP_eq, List.countP_append]
      exact le_trans (hr x (List.mem_cons_self x r')) (Nat.le_add_right _ _)
    calc sortTake count (m ++ x :: r')
        = sortTake count (x :: (m ++ r')) := sortTake_congr count List.perm_middle
      _ = sortTake count (m ++ r') := by
          show (List.insertionSort rge (x :: (m ++ r'))).take count
            = (List.insertionSort rge (m ++ r')).take count
          exact take_orderedInsert_of_countP x _ count
            (List.sorted_insertionSort rge _) h3
      _ = sortTake count m := ih m count (fun z hz => hr z (List.mem_cons_of_mem x hz))

/-- Absorption: reselecting the count-largest after folding a new batch into
an existing count-largest selection is the same as selecting from the batch
and the full history. -/
theorem sortTake_absorb (count : ℕ) (b s : List (WithBot ℚ))
    (hs : count ≤ s.length) :
    sortTake count (b ++ sortTake count s) = sortTake count (b ++ s) := by
  have hsorted : List.Sorted rge (List.insertionSort rge s) :=
    List.sorted_insertionSort rge s
  have hperm : (b ++ s).Perm ((b ++ (List.insertionSort rge s).take count)
      ++ (List.insertionSort rge s).drop count) := by
    have h2 : b ++ List.insertionSort rge s
        = (b ++ (List.insertionSort rge s).take count)
          ++ (List.insertionSort rge s).drop count := by
      rw [List.append_assoc, List.take_append_drop]
    rw [← h2]
    exact List.Perm.append_left b (List.perm_insertionSort rge s).symm
  have hcond : ∀ x ∈ (List.insertionSort rge s).drop count,
      count ≤ (b ++ (List.insertionSort rge s).take count).countP
        (fun y => decide (x ≤ y)) := by
    intro x hx
    have hpw : List.Pairwise rge ((List.insertionSort rge s).take count
        ++ (List.insertionSort rge s).drop count) := by
      rw [List.take_append_drop]
      exact hsorted
    have hrel : ∀ y ∈ (List.insertionSort rge s).take count, x ≤ y :=
      fun y hy => (List.pairwise_append.1 hpw).2.2 y hy x hx
    have hlen : ((List.insertionSort rge s).take count).length = count := by
      rw [List.length_take, List.length_insertionSort]
      exact min_eq_left hs
    have hfull : ((List.insertionSort rge s).take count).countP
        (fun y => decide (x ≤ y)) = count := by
      have h := List.countP_eq_length.2
        (fun a ha => decide_eq_true (hrel a ha))
      rw [h, hlen]
    rw [List.countP_append, hfull]
    omega
  rw [sortTake_congr count hperm,
    sortTake_append_of_countP _ _ count hcond]
  rfl

/- ----------------------------------------------------------------------
   The best-results pool invariant (C3) and the loop-level lemmas.
   ---------------------------------------------------------------------- -/

/-- The rewards observed across a sequence of batches, in order. -/
def seenRewards (batches : List (List (List ℚ) × List (WithBot ℚ))) :
    List (WithBot ℚ) :=
  (batches.map Prod.snd).flatten

/-- The initial best-results pool of `optimize`: `count` rows of reward
`-inf` and all-zero feature rows of width `d`. -/
def initBestResults (count d : ℕ) : VectorizedStrategyResults :=
  { rewards := List.replicate count ⊥
    features := List.replicate count (List.replicate d 0) }

/-- Folding a sequence of (features, rewards) batches into the pool with
`_update_best_results`, as the optimizer loop does. -/
def foldBestResults (count d : ℕ)
    (batches : List (List (List ℚ) × List (WithBot ℚ))) :
    VectorizedStrategyResults :=
  batches.foldl (fun p b => updateBestResults p count b.1 b.2)
    (initBestResults count d)

/-- The top-`count` multiset of a reward list. -/
def topRewards (count : ℕ) (l : List (WithBot ℚ)) : Multiset (WithBot ℚ) :=
  (sortTake count l : List (WithBot ℚ))

/-- The rewards selected by `_update_best_results` are the count-largest of
the concatenated rewards. -/
theorem updateBestResults_rewards (best : VectorizedStrategyResults)
    (count : ℕ) (bf : List (List ℚ)) (br : List (WithBot ℚ))
    (h : br.length + best.rewards.length ≤ bf.length + best.features.length) :
    (updateBestResults best count bf br).rewards
      = sortTake count (br ++ best.rewards) := by
  simp only [updateBestResults]
  rw [List.map_take, map_fst_insertionSort,
    List.map_fst_zip _ _ (by simpa using h)]
  rfl

/-- `_update_best_results` keeps the pool at exactly `count` rows. -/
theorem updateBestResults_length (best : VectorizedStrategyResults)
    (count : ℕ) (bf : List (List ℚ)) (br : List (WithBot ℚ))
    (h1 : best.rewards.length = count) (h2 : best.features.length = count) :
    (updateBestResults best count bf br).rewards.length = count ∧
    (updateBestResults best count bf br).features.length = count := by
  simp only [updateBestResults, List.length_map, List.length_take,
    List.length_insertionSort, List.length_zip, List.length_append, h1, h2]
  omega

/-- The initial pool's rewards are already a count-largest selection of the
`count` sentinels. -/
theorem initBestResults_rewards (count d : ℕ) :
    (initBestResults count d).rewards
      = sortTake count (List.replicate count ⊥) := by
  have hsorted : List.Sorted rge (List.replicate count (⊥ : WithBot ℚ)) :=
    List.pairwise_replicate.2 (Or.inr (le_refl _))
  have hsort : List.insertionSort rge (List.replicate count (⊥ : WithBot ℚ))
      = List.replicate count ⊥ :=
    List.eq_of_perm_of_sorted (List.perm_insertionSort rge _)
      (List.sorted_insertionSort rge _) hsorted
  simp only [initBestResults]
  rw [sortTake, hsort, List.take_replicate, min_self]

/-- Core fold invariant: if the pool holds the count-largest of `base`, then
after folding any batches it holds the count-largest of all rewards seen
plus `base`, and stays at exactly `count` rows. -/
theorem foldBestResults_core (count : ℕ) :
    ∀ (batches : List (List (List ℚ) × List (WithBot ℚ)))
      (pool : VectorizedStrategyResults) (base : List (WithBot ℚ)),
      (∀ b ∈ batches, (b.2).length = (b.1).length) →
      pool.rewards.length = count → pool.features.length = count →
      pool.rewards = sortTake count base → count ≤ base.length →
      ((batches.foldl (fun p b => updateBestResults p count b.1 b.2) pool).rewards
          = sortTake count (seenRewards batches ++ base) ∧
        (batches.foldl (fun p b => updateBestResults p count b.1 b.2) pool).rewards.length
          = count ∧
        (batches.foldl (fun p b => updateBestResults p count b.1 b.2) pool).features.length
          = count) := by
  intro batches
  induction batches with
  | nil =>
    intro pool base _ h1 h2 hchar _
    refine ⟨?_, h1, h2⟩
    simpa [seenRewards] using hchar
  | cons b bs ih =>
    intro pool base hal h1 h2 hchar hbase
    rw [List.foldl_cons]
    have hb2 : (b.2).length = (b.1).length := hal b (List.mem_cons_self b bs)
    have hlen := updateBestResults_length pool count b.1 b.2 h1 h2
    have hrew : (updateBestResults pool count b.1 b.2).rewards
        = sortTake count (b.2 ++ base) := by
      rw [updateBestResults_rewards pool count b.1 b.2 (by omega), hchar,
        sortTake_absorb count b.2 base hbase]
    have hrest := ih (updateBestResults pool count b.1 b.2) (b.2 ++ base)
      (fun c hc => hal c (List.mem_cons_of_mem b hc)) hlen.1 hlen.2 hrew
      (by rw [List.length_append]; omega)
    refine ⟨?_, hrest.2.1, hrest.2.2⟩
    rw [hrest.1]
    apply sortTake_congr
    have hseen : seenRewards (b :: bs) = b.2 ++ seenRewards bs := by
      simp [seenRewards]
    rw [hseen, ← List.append_assoc]
    exact List.Perm.append_right base List.perm_append_comm

/-- C3: starting from the `count`-row pool of `-inf` rewards and zero
features, after folding any finite sequence of batches the pool still has
exactly `count` rows, its reward multiset is the top-`count` multiset of all
rewards seen so far together with the `-inf` sentinels, and the reward
multiset is invariant under reordering the batches. -/
theorem bestResultsPool_invariant (count d : ℕ)
    (batches : List (List (List ℚ) × List (WithBot ℚ)))
    (h : ∀ b ∈ batches, (b.2).length = (b.1).length) :
    (foldBestResults count d batches).rewards.length = count ∧
    (foldBestResults count d batches).features.length = count ∧
    ((foldBestResults count d batches).rewards : Multiset (WithBot ℚ))
      = topRewards count (seenRewards batches ++ List.replicate count ⊥) ∧
    ∀ batches₂, batches.Perm batches₂ →
      ((foldBestResults count d batches).rewards : Multiset (WithBot ℚ))
        = ((foldBestResults count d batches₂).rewards : Multiset (WithBot ℚ)) := by
  have hcore := foldBestResults_core count batches (initBestResults count d)
    (List.replicate count ⊥) h (by simp [initBestResults])
    (by simp [initBestResults]) (initBestResults_rewards count d) (by simp)
  refine ⟨hcore.2.1, hcore.2.2, ?_, ?_⟩
  · show ((foldBestResults count d batches).rewards : Multiset (WithBot ℚ)) = _
    unfold foldBestResults
    rw [hcore.1]
    rfl
  · intro batches₂ hperm
    have h₂ : ∀ b ∈ batches₂, (b.2).length = (b.1).length :=
      fun b hb => h b (hperm.mem_iff.2 hb)
    have hcore₂ := foldBestResults_core count batches₂ (initBestResults count d)
      (List.replicate count ⊥) h₂ (by simp [initBestResults])
      (by simp [initBestResults]) (initBestResults_rewards count d) (by simp)
    have hseen : (seenRewards batches).Perm (seenRewards batches₂) :=
      List.Perm.flatten (hperm.map Prod.snd)
    unfold foldBestResults
    rw [hcore.1, hcore₂.1]
    exact congrArg _ (sortTake_congr count (hseen.append_right _))

/-- Witness for C3 at a concrete one-batch input: the pool has one row and
its reward multiset is the top-1 multiset of the seen reward and the
sentinel. -/
theorem bestResultsPool_invariant_witness :
    (foldBestResults 1 1 [([[5]], [((3 : ℚ) : WithBot ℚ)])]).rewards.length = 1 ∧
    ((foldBestResults 1 1 [([[5]], [((3 : ℚ) : WithBot ℚ)])]).rewards
        : Multiset (WithBot ℚ))
      = topRewards 1 ([((3 : ℚ) : WithBot ℚ)] ++ List.replicate 1 ⊥) := by
  have h := bestResultsPool_invariant 1 1 [([[5]], [((3 : ℚ) : WithBot ℚ)])]
    (by simp)
  exact ⟨h.1, h.2.2.1⟩

/- ----------------------------------------------------------------------
   Loop-level lemmas and the optimize-level claims (C2, C6, C10).
   ---------------------------------------------------------------------- -/

/-- The pool stays at exactly `count` rows through any number of loop
steps. -/
theorem loop_pool_length {S K : Type} (rng : JaxRandom K)
    (strategy : VectorizedStrategy S K)
    (score_fn : List (List ℚ) → List (WithBot ℚ)) (count : ℕ) :
    ∀ (l : List ℕ) (args : S × VectorizedStrategyResults × K),
      args.2.1.rewards.length = count → args.2.1.features.length = count →
      ((l.foldl (fun a _ => optimizationOneStep rng strategy score_fn count a)
          args).2.1.rewards.length = count ∧
       (l.foldl (fun a _ => optimizationOneStep rng strategy score_fn count a)
          args).2.1.features.length = count) := by
  intro l
  induction l with
  | nil => intro args h1 h2; exact ⟨h1, h2⟩
  | cons i l ih =>
    intro args h1 h2
    rw [List.foldl_cons]
    have hstep := updateBestResults_length args.2.1 count
      (strategy.suggest args.1 (rng.split3 args.2.2).1)
      (score_fn (strategy.suggest args.1 (rng.split3 args.2.2).1)) h1 h2
    exact ih _ hstep.1 hstep.2

/-- The pool produced by `optimize`'s loop has exactly `count` rows. -/
theorem loopResult_pool_length {P S K : Type} (o : VectorizedOptimizer P S K)
    (rng : JaxRandom K) (converter : TrialToArrayConverter P)
    (score_fn : List (List ℚ) → List (WithBot ℚ)) (count : ℕ)
    (prior_trials : List (Trial P)) (seed : Option ℕ) :
    (o.loopResult rng converter score_fn count prior_trials seed).2.1.rewards.length
      = count ∧
    (o.loopResult rng converter score_fn count prior_trials seed).2.1.features.length
      = count := by
  unfold VectorizedOptimizer.loopResult
  exact loop_pool_length rng (o.strategy_factory converter o.suggestion_batch_size)
    score_fn count (List.range o.numSteps) _ (by simp) (by simp)

/-- `_best_candidates` returns one trial per pool row. -/
theorem bestCandidates_length {P : Type} (best : VectorizedStrategyResults)
    (conv : TrialToArrayConverter P) (count : ℕ)
    (h1 : best.rewards.length = count) (h2 : best.features.length = count) :
    (bestCandidates best conv).length = count := by
  simp [bestCandidates, List.length_insertionSort, List.length_zip, h1, h2]

/-- The trials returned by `_best_candidates` are sorted by non-increasing
'acquisition' measurement. -/
theorem bestCandidates_sorted {P : Type} (best : VectorizedStrategyResults)
    (conv : TrialToArrayConverter P) :
    List.Sorted rge ((bestCandidates best conv).map Trial.acquisition) := by
  have hmap : (bestCandidates best conv).map Trial.acquisition
      = (List.insertionSort rewardPairGe (best.rewards.zip best.features)).map
          Prod.fst := by
    rw [bestCandidates, List.map_map]
    rfl
  rw [hmap, map_fst_insertionSort]
  exact List.sorted_insertionSort rge _

/-- `optimize` always returns exactly `count` trials. -/
theorem optimize_length {P S K : Type} (o : VectorizedOptimizer P S K)
    (rng : JaxRandom K) (converter : TrialToArrayConverter P)
    (score_fn : List (List ℚ) → List (WithBot ℚ)) (count : ℕ)
    (prior_trials : List (Trial P)) (seed : Option ℕ) :
    (o.optimize rng converter score_fn count prior_trials seed).length = count := by
  have h := loopResult_pool_length o rng converter score_fn count prior_trials seed
  unfold VectorizedOptimizer.optimize
  exact bestCandidates_length _ _ count h.1 h.2

/-- The trials returned by `optimize` are sorted by non-increasing
'acquisition' measurement. -/
theorem optimize_sorted {P S K : Type} (o : VectorizedOptimizer P S K)
    (rng : JaxRandom K) (converter : TrialToArrayConverter P)
    (score_fn : List (List ℚ) → List (WithBot ℚ)) (count : ℕ)
    (prior_trials : List (Trial P)) (seed : Option ℕ) :
    List.Sorted rge
      ((o.optimize rng converter score_fn count prior_trials seed).map
        Trial.acquisition) := by
  unfold VectorizedOptimizer.optimize
  exact bestCandidates_sorted _ _

/-- C2: the loop's trip count is the static `max_evaluations //
suggestion_batch_size`; the total evaluation count inside the loop is
`numSteps * suggestion_batch_size`, which is at most (and can be less than)
`max_evaluations`; the returned list always has exactly `count` trials
sorted by non-increasing 'acquisition'; and at `max_evaluations = 100`,
`suggestion_batch_size = 25`, `count = 3` the loop runs exactly 4 steps and
returns exactly 3 sorted trials. -/
theorem optimize_trip_count_and_sorted {P S K : Type}
    (o : VectorizedOptimizer P S K) (rng : JaxRandom K)
    (converter : TrialToArrayConverter P)
    (score_fn : List (List ℚ) → List (WithBot ℚ)) (count : ℕ)
    (prior_trials : List (Trial P)) (seed : Option ℕ)
    (factory : TrialToArrayConverter P → ℕ → VectorizedStrategy S K)
    (jl : Bool) :
    o.numSteps = o.max_evaluations / o.suggestion_batch_size ∧
    o.totalEvaluations = o.numSteps * o.suggestion_batch_size ∧
    o.totalEvaluations ≤ o.max_evaluations ∧
    (o.optimize rng converter score_fn count prior_trials seed).length = count ∧
    List.Sorted rge
      ((o.optimize rng converter score_fn count prior_trials seed).map
        Trial.acquisition) ∧
    (VectorizedOptimizer.mk (P := P) factory 25 100 jl).numSteps = 4 ∧
    ((VectorizedOptimizer.mk (P := P) factory 25 100 jl).optimize rng converter
        score_fn 3 prior_trials seed).length = 3 ∧
    List.Sorted rge
      (((VectorizedOptimizer.mk (P := P) factory 25 100 jl).optimize rng
          converter score_fn 3 prior_trials seed).map Trial.acquisition) :=
  ⟨rfl, rfl, Nat.div_mul_le_self _ _,
   optimize_length o rng converter score_fn count prior_trials seed,
   optimize_sorted o rng converter score_fn count prior_trials seed,
   by norm_num [VectorizedOptimizer.numSteps],
   optimize_length _ rng converter score_fn 3 prior_trials seed,
   optimize_sorted _ rng converter score_fn 3 prior_trials seed⟩

/-- C6: with the same seed, configuration, strategy factory and score
function, two runs of `optimize` return identical trial lists (the embedding
is a pure function of the top-level seed: every sub-seed consumed by
suggest/update is derived from it by `jax.random.split`). -/
theorem optimize_deterministic {P S K : Type} (o : VectorizedOptimizer P S K)
    (rng : JaxRandom K) (converter : TrialToArrayConverter P)
    (score_fn : List (List ℚ) → List (WithBot ℚ)) (count : ℕ)
    (prior_trials : List (Trial P)) (seed₁ seed₂ : Option ℕ)
    (h : seed₁ = seed₂) :
    o.optimize rng converter score_fn count prior_trials seed₁
      = o.optimize rng converter score_fn count prior_trials seed₂ := by
  rw [h]

/-- Witness for C6: two identically-configured concrete runs agree. -/
theorem optimize_deterministic_witness :
    VectorizedOptimizer.optimize (P := Unit) (S := Unit) (K := ℕ)
        ⟨fun _ _ => ⟨fun _ _ _ => (), fun _ _ => [[0]], fun _ _ _ _ => ()⟩, 2, 4, true⟩
        ⟨fun n => n, fun k => (k, k), fun k => (k, k, k)⟩
        ⟨1, fun _ => [], fun _ => ()⟩
        (fun xs => xs.map (fun _ => ((0 : ℚ) : WithBot ℚ))) 1 [] (some 7)
      = VectorizedOptimizer.optimize
        ⟨fun _ _ => ⟨fun _ _ _ => (), fun _ _ => [[0]], fun _ _ _ _ => ()⟩, 2, 4, true⟩
        ⟨fun n => n, fun k => (k, k), fun k => (k, k, k)⟩
        ⟨1, fun _ => [], fun _ => ()⟩
        (fun xs => xs.map (fun _ => ((0 : ℚ) : WithBot ℚ))) 1 [] (some 7) :=
  optimize_deterministic _ _ _ _ _ _ _ _ rfl

/-- A stable sort of a constant list is that list. -/
theorem insertionSort_replicate {α : Type} (n : ℕ) (p : WithBot ℚ × α) :
    List.insertionSort rewardPairGe (List.replicate n p) = List.replicate n p := by
  have hmem : ∀ q ∈ List.insertionSort rewardPairGe (List.replicate n p), q = p :=
    fun q hq => List.eq_of_mem_replicate
      ((List.perm_insertionSort rewardPairGe (List.replicate n p)).subset hq)
  have hlen : (List.insertionSort rewardPairGe (List.replicate n p)).length = n := by
    rw [List.length_insertionSort, List.length_replicate]
  rw [List.eq_replicate_of_mem hmem, hlen]

/-- C10: `optimize` always returns exactly `count` completed trials, and
when the loop performs zero steps (`max_evaluations <
suggestion_batch_size`) every returned trial is an untouched initialization
sentinel: 'acquisition' measurement `-inf` and parameters decoded from the
all-zero feature row. -/
theorem optimize_count_and_sentinels {P S K : Type}
    (o : VectorizedOptimizer P S K) (rng : JaxRandom K)
    (converter : TrialToArrayConverter P)
    (score_fn : List (List ℚ) → List (WithBot ℚ)) (count : ℕ)
    (prior_trials : List (Trial P)) (seed : Option ℕ) :
    (o.optimize rng converter score_fn count prior_trials seed).length = count ∧
    (o.max_evaluations < o.suggestion_batch_size →
      o.optimize rng converter score_fn count prior_trials seed
        = List.replicate count
            (Trial.complete
              ⟨converter.to_parameters (List.replicate converter.num_features 0),
                0, none⟩
              ⟨[("acquisition", ⊥)]⟩)) := by
  refine ⟨optimize_length o rng converter score_fn count prior_trials seed,
    fun hlt => ?_⟩
  have hzero : o.numSteps = 0 := Nat.div_eq_of_lt hlt
  unfold VectorizedOptimizer.optimize VectorizedOptimizer.loopResult
  rw [hzero]
  simp only [List.range_zero, List.foldl_nil]
  rw [bestCandidates]
  simp only
  rw [List.zip_replicate, min_self, insertionSort_replicate, List.map_replicate]

/-- Witness for C10: a concrete run with `max_evaluations = 10 <
suggestion_batch_size = 25` returns exactly its 2 sentinels. -/
theorem optimize_count_and_sentinels_witness :
    (VectorizedOptimizer.optimize (P := Unit) (S := Unit) (K := ℕ)
        ⟨fun _ _ => ⟨fun _ _ _ => (), fun _ _ => [[0]], fun _ _ _ _ => ()⟩, 25, 10, true⟩
        ⟨fun n => n, fun k => (k, k), fun k => (k, k, k)⟩
        ⟨1, fun _ => [], fun _ => ()⟩
        (fun xs => xs.map (fun _ => ((0 : ℚ) : WithBot ℚ))) 2 [] none).length = 2 ∧
    VectorizedOptimizer.optimize (P := Unit) (S := Unit) (K := ℕ)
        ⟨fun _ _ => ⟨fun _ _ _ => (), fun _ _ => [[0]], fun _ _ _ _ => ()⟩, 25, 10, true⟩
        ⟨fun n => n, fun k => (k, k), fun k => (k, k, k)⟩
        ⟨1, fun _ => [], fun _ => ()⟩
        (fun xs => xs.map (fun _ => ((0 : ℚ) : WithBot ℚ))) 2 [] none
      = List.replicate 2 (Trial.complete ⟨(), 0, none⟩ ⟨[("acquisition", ⊥)]⟩) := by
  have h := optimize_count_and_sentinels (P := Unit) (S := Unit) (K := ℕ)
    ⟨fun _ _ => ⟨fun _ _ _ => (), fun _ _ => [[0]], fun _ _ _ _ => ()⟩, 25, 10, true⟩
    ⟨fun n => n, fun k => (k, k), fun k => (k, k, k)⟩
    ⟨1, fun _ => [], fun _ => ()⟩
    (fun xs => xs.map (fun _ => ((0 : ℚ) : WithBot ℚ))) 2 [] none
  exact ⟨h.1, h.2 (by decide)⟩

end Vizier
